import Mathlib

/-!
CelLit plugin module: shader directory swap.

Shallow embedding of `CelLit/Source/CelLit/Private/CelLit.cpp`.

The module has two lifecycle hooks, `FCelLitModule::StartupModule` and
`FCelLitModule::ShutdownModule`.  Each obtains the host's `IPlatformFile`,
computes three directory names with `FPaths::Combine`, and issues directory
primitives whose boolean results are dropped.

* The hooks are embedded over an arbitrary `IPlatformFile` (a record of the two
  primitives the module calls), by explicit state passing.
* The host's primitives are not part of the repository.  A reference
  in-memory file system models them from the specification.
-/

namespace CelLit

/-! ## Paths -/

/-- A path is the list of its components, outermost first. -/
abbrev Path := List String

/-- Host environment queried through `FPaths`: the two well-known directories the
module asks for. -/
structure FPaths where
  /-- Value of `FPaths::EngineDir()`. -/
  EngineDir : Path
  /-- Value of `FPaths::ProjectPluginsDir()`. -/
  ProjectPluginsDir : Path
deriving DecidableEq, Repr

/-- Modelled from the spec: the host's path-joining utility `FPaths::Combine`,
which is outside this repository.  On component lists joining is
concatenation. -/
def FPaths.Combine (a b : Path) : Path := a ++ b

/-- Local constant `EngineShaderDir` of both hooks:
`FPaths::Combine(FPaths::EngineDir(), TEXT("/Shaders/Private"))`. -/
def EngineShaderDir (host : FPaths) : Path :=
  FPaths.Combine host.EngineDir ["Shaders", "Private"]

/-- Local constant `CustomShaderDir` of both hooks:
`FPaths::Combine(FPaths::ProjectPluginsDir(), TEXT("/CelLit/Shaders/Private"))`. -/
def CustomShaderDir (host : FPaths) : Path :=
  FPaths.Combine host.ProjectPluginsDir ["CelLit", "Shaders", "Private"]

/-- Local constant `BackupDir` of both hooks:
`FPaths::Combine(FPaths::ProjectPluginsDir(), TEXT("/CelLit/Shaders/Temp"))`. -/
def BackupDir (host : FPaths) : Path :=
  FPaths.Combine host.ProjectPluginsDir ["CelLit", "Shaders", "Temp"]

/-! ## The platform file interface and the two hooks -/

/-- The part of the host interface `IPlatformFile` that the module uses, over a
state type `σ`.  Argument order is the host's:
`CopyDirectoryTree(DestinationDirectory, Source, bOverwriteAllExisting)` and
`DeleteDirectoryRecursively(Directory)`; each returns a status and the new
state. -/
structure IPlatformFile (σ : Type) where
  /-- `CopyDirectoryTree dest src overwrite`. -/
  CopyDirectoryTree : Path → Path → Bool → σ → Bool × σ
  /-- `DeleteDirectoryRecursively dir`. -/
  DeleteDirectoryRecursively : Path → σ → Bool × σ

/-- `FCelLitModule::StartupModule`: two copies in sequence, both statuses dropped.
```
PlatformFile.CopyDirectoryTree(*BackupDir, *EngineShaderDir, true);
PlatformFile.CopyDirectoryTree(*EngineShaderDir, *CustomShaderDir, true);
``` -/
def StartupModule {σ : Type} (PlatformFile : IPlatformFile σ) (host : FPaths) (s : σ) : σ :=
  let s1 := (PlatformFile.CopyDirectoryTree (BackupDir host) (EngineShaderDir host) true s).2
  let s2 := (PlatformFile.CopyDirectoryTree (EngineShaderDir host) (CustomShaderDir host) true s1).2
  s2

/-- `FCelLitModule::ShutdownModule`: one copy, then one delete, both statuses
dropped.  The delete of `EngineShaderDir` that precedes them in the source is
commented out and therefore not issued.
```
// PlatformFile.DeleteDirectoryRecursively(*EngineShaderDir);
PlatformFile.CopyDirectoryTree(*EngineShaderDir, *BackupDir, true);
PlatformFile.DeleteDirectoryRecursively(*BackupDir);
``` -/
def ShutdownModule {σ : Type} (PlatformFile : IPlatformFile σ) (host : FPaths) (s : σ) : σ :=
  let s1 := (PlatformFile.CopyDirectoryTree (EngineShaderDir host) (BackupDir host) true s).2
  let s2 := (PlatformFile.DeleteDirectoryRecursively (BackupDir host) s1).2
  s2

/-! ## Observing the calls a hook issues -/

/-- A call on the platform file, with its arguments in the host's order. -/
inductive Call where
  | CopyDirectoryTree (dest src : Path) (overwrite : Bool)
  | DeleteDirectoryRecursively (dir : Path)
deriving DecidableEq, Repr

/-- Wraps a platform file so that every call is appended, with the status it
returned, to a log carried next to the state.  The wrapped primitives behave
exactly as the underlying ones. -/
def recording {σ : Type} (pf : IPlatformFile σ) : IPlatformFile (σ × List (Call × Bool)) where
  CopyDirectoryTree dest src overwrite st :=
    let r := pf.CopyDirectoryTree dest src overwrite st.1
    (r.1, (r.2, st.2 ++ [(Call.CopyDirectoryTree dest src overwrite, r.1)]))
  DeleteDirectoryRecursively dir st :=
    let r := pf.DeleteDirectoryRecursively dir st.1
    (r.1, (r.2, st.2 ++ [(Call.DeleteDirectoryRecursively dir, r.1)]))

/-- Whether a call is a directory copy. -/
def Call.isCopy : Call → Bool
  | Call.CopyDirectoryTree _ _ _ => true
  | Call.DeleteDirectoryRecursively _ => false

/-- Every copy in the log returned `true`. -/
def allCopiesSucceed (log : List (Call × Bool)) : Bool :=
  log.all fun c => !c.1.isCopy || c.2

/-! ## Reference in-memory file system -/

/-- What a path holds: a file with its contents, or a directory. -/
inductive Entry where
  | file (data : String)
  | directory
deriving DecidableEq, Repr

/-- A file system state: what each absolute path holds, if anything. -/
abbrev FileSystem := Path → Option Entry

/-- The remainder of `q` after the leading components `p`, when `q` lies at or
under `p`. -/
def relativeTo : Path → Path → Option Path
  | [], q => some q
  | _ :: _, [] => none
  | a :: p, b :: q => if a = b then relativeTo p q else none

/-- Neither directory lies at or under the other. -/
def Unrelated (p q : Path) : Prop :=
  relativeTo p q = none ∧ relativeTo q p = none

instance (p q : Path) : Decidable (Unrelated p q) := by
  unfold Unrelated; infer_instance

/-- Layout of the host's directories under which the engine shader directory
shares no path with the plugin's two directories. -/
def Separated (host : FPaths) : Prop :=
  Unrelated (EngineShaderDir host) (BackupDir host) ∧
  Unrelated (EngineShaderDir host) (CustomShaderDir host)

instance (host : FPaths) : Decidable (Separated host) := by
  unfold Separated; infer_instance

/-- The path `dir` holds a directory. -/
def DirectoryExists (fs : FileSystem) (dir : Path) : Bool :=
  fs dir == some Entry.directory

/-- Nothing, file or directory, is at or under `dir`. -/
def Absent (fs : FileSystem) (dir : Path) : Prop :=
  ∀ r : Path, fs (dir ++ r) = none

/-- Modelled from the spec: the host primitive
`CopyDirectoryTree(dest, src, overwrite) -> bool`, which is outside this
repository ("recursively copy `src` → `dest`, overwriting any existing contents
at the destination"; "source missing" is a failure).  When `src` is not a
directory the call fails and changes nothing.  Otherwise every entry at a
relative path under `src` is written at the same relative path under `dest`
(the directory `dest` itself included), replacing what was there when
`overwrite` is set and kept out when it is not and the path is taken; paths of
`dest` with no counterpart in `src`, and all paths outside `dest`, are left as
they were. -/
def CopyDirectoryTree (dest src : Path) (overwrite : Bool) (fs : FileSystem) :
    Bool × FileSystem :=
  if DirectoryExists fs src then
    (true, fun q =>
      match relativeTo dest q with
      | some r =>
        match fs (src ++ r) with
        | some e => if overwrite || (fs q).isNone then some e else fs q
        | none => fs q
      | none => fs q)
  else
    (false, fs)

/-- Modelled from the spec: the host primitive
`DeleteDirectoryRecursively(dir) -> bool`, which is outside this repository
("recursively delete").  Afterwards nothing is at or under `dir`; all other
paths are left as they were.  The status reports that no directory is left at
`dir`, which in this model is always the case. -/
def DeleteDirectoryRecursively (dir : Path) (fs : FileSystem) : Bool × FileSystem :=
  (true, fun q =>
    match relativeTo dir q with
    | some _ => none
    | none => fs q)

/-- The reference platform file: the two modelled primitives on `FileSystem`. -/
def PlatformFile : IPlatformFile FileSystem where
  CopyDirectoryTree := CopyDirectoryTree
  DeleteDirectoryRecursively := DeleteDirectoryRecursively

/-- Modelled from the spec: a platform file on which access to some directories
is refused ("permission denied").  A primitive aimed at a refused directory
fails and changes nothing; every other call behaves as on `PlatformFile`. -/
def refusing (denied : Path → Bool) : IPlatformFile FileSystem where
  CopyDirectoryTree dest src overwrite fs :=
    if denied dest then (false, fs) else CopyDirectoryTree dest src overwrite fs
  DeleteDirectoryRecursively dir fs :=
    if denied dir then (false, fs) else DeleteDirectoryRecursively dir fs

/-- The file system holding exactly the listed entries (the first listing of a
path wins). -/
def FileSystem.ofList (entries : List (Path × Entry)) : FileSystem :=
  fun q => entries.lookup q

/-! ## Sample states used by the concrete checks -/

/-- A host whose engine lives in `Engine` and whose project plugins live in
`Project/Plugins`. -/
def sampleHost : FPaths :=
  { EngineDir := ["Engine"], ProjectPluginsDir := ["Project", "Plugins"] }

/-- Directories above the three shader directories of `sampleHost`. -/
def sampleParents : List (Path × Entry) :=
  [ ([], Entry.directory),
    (["Engine"], Entry.directory),
    (["Engine", "Shaders"], Entry.directory),
    (["Project"], Entry.directory),
    (["Project", "Plugins"], Entry.directory),
    (["Project", "Plugins", "CelLit"], Entry.directory),
    (["Project", "Plugins", "CelLit", "Shaders"], Entry.directory) ]

/-- A fresh install: the engine ships `Common.ush` and `Toon.usf`, the plugin
ships its own `Toon.usf` and a new `CelLit.usf`, and no backup exists. -/
def freshInstall : FileSystem :=
  FileSystem.ofList (sampleParents ++
    [ (["Engine", "Shaders", "Private"], Entry.directory),
      (["Engine", "Shaders", "Private", "Common.ush"], Entry.file "engine common"),
      (["Engine", "Shaders", "Private", "Toon.usf"], Entry.file "engine toon"),
      (["Project", "Plugins", "CelLit", "Shaders", "Private"], Entry.directory),
      (["Project", "Plugins", "CelLit", "Shaders", "Private", "Toon.usf"], Entry.file "custom toon"),
      (["Project", "Plugins", "CelLit", "Shaders", "Private", "CelLit.usf"], Entry.file "custom cel") ])

/-- The state of a loaded plugin: the engine directory holds the custom
`Toon.usf`, the backup holds the engine's own. -/
def loadedState : FileSystem :=
  FileSystem.ofList (sampleParents ++
    [ (["Engine", "Shaders", "Private"], Entry.directory),
      (["Engine", "Shaders", "Private", "Toon.usf"], Entry.file "custom toon"),
      (["Project", "Plugins", "CelLit", "Shaders", "Private"], Entry.directory),
      (["Project", "Plugins", "CelLit", "Shaders", "Private", "Toon.usf"], Entry.file "custom toon"),
      (["Project", "Plugins", "CelLit", "Shaders", "Temp"], Entry.directory),
      (["Project", "Plugins", "CelLit", "Shaders", "Temp", "Toon.usf"], Entry.file "engine toon") ])

/-! ## Paths: basic facts -/

theorem relativeTo_append (p r : Path) : relativeTo p (p ++ r) = some r := by
  induction p with
  | nil => rfl
  | cons a p ih => simp [relativeTo, ih]

theorem relativeTo_append_left (p x y : Path) :
    relativeTo (p ++ x) (p ++ y) = relativeTo x y := by
  induction p with
  | nil => rfl
  | cons a p ih => simp [relativeTo, ih]

theorem relativeTo_none_append (p q r : Path)
    (h1 : relativeTo p q = none) (h2 : relativeTo q p = none) :
    relativeTo p (q ++ r) = none := by
  induction p generalizing q with
  | nil => simp [relativeTo] at h1
  | cons a p ih =>
    cases q with
    | nil => simp [relativeTo] at h2
    | cons b q =>
      by_cases hab : a = b
      · subst hab
        simp only [relativeTo, if_true] at h1 h2
        simp only [List.cons_append, relativeTo, if_true]
        exact ih q h1 h2
      · simp [relativeTo, hab]

theorem Unrelated.symm {p q : Path} (h : Unrelated p q) : Unrelated q p :=
  ⟨h.2, h.1⟩

theorem Unrelated.outside {p q : Path} (h : Unrelated p q) (r : Path) :
    relativeTo p (q ++ r) = none :=
  relativeTo_none_append p q r h.1 h.2

theorem backup_unrelated_custom (host : FPaths) :
    Unrelated (BackupDir host) (CustomShaderDir host) := by
  unfold Unrelated BackupDir CustomShaderDir FPaths.Combine
  rw [relativeTo_append_left, relativeTo_append_left]
  decide

/-! ## The modelled primitives, path by path -/

theorem copy_status (dest src : Path) (overwrite : Bool) (fs : FileSystem) :
    (CopyDirectoryTree dest src overwrite fs).1 = DirectoryExists fs src := by
  unfold CopyDirectoryTree
  cases h : DirectoryExists fs src <;> simp

theorem copy_of_missing (dest src : Path) (overwrite : Bool) (fs : FileSystem)
    (h : DirectoryExists fs src = false) :
    CopyDirectoryTree dest src overwrite fs = (false, fs) := by
  simp [CopyDirectoryTree, h]

theorem copy_outside (dest src : Path) (overwrite : Bool) (fs : FileSystem) (q : Path)
    (h : relativeTo dest q = none) :
    (CopyDirectoryTree dest src overwrite fs).2 q = fs q := by
  unfold CopyDirectoryTree
  cases hs : DirectoryExists fs src <;> simp [h]

theorem copy_at_some (dest src : Path) (fs : FileSystem) (r : Path) (e : Entry)
    (hs : DirectoryExists fs src = true) (he : fs (src ++ r) = some e) :
    (CopyDirectoryTree dest src true fs).2 (dest ++ r) = some e := by
  simp [CopyDirectoryTree, hs, relativeTo_append, he]

theorem copy_at_none (dest src : Path) (overwrite : Bool) (fs : FileSystem) (r : Path)
    (he : fs (src ++ r) = none) :
    (CopyDirectoryTree dest src overwrite fs).2 (dest ++ r) = fs (dest ++ r) := by
  unfold CopyDirectoryTree
  cases hs : DirectoryExists fs src <;> simp [relativeTo_append, he]

theorem delete_at (dir : Path) (fs : FileSystem) (r : Path) :
    (DeleteDirectoryRecursively dir fs).2 (dir ++ r) = none := by
  simp [DeleteDirectoryRecursively, relativeTo_append]

theorem delete_outside (dir : Path) (fs : FileSystem) (q : Path)
    (h : relativeTo dir q = none) :
    (DeleteDirectoryRecursively dir fs).2 q = fs q := by
  simp [DeleteDirectoryRecursively, h]

theorem relativeTo_none_of_absent_ne (dir q : Path) (fs : FileSystem)
    (habs : Absent fs dir) (hq : fs q ≠ none) : relativeTo dir q = none := by
  cases h : relativeTo dir q with
  | none => rfl
  | some r =>
    exfalso
    have hq2 : q = dir ++ r := by
      clear habs hq
      induction dir generalizing q with
      | nil => simp [relativeTo] at h; simp [h]
      | cons a p ih =>
        cases q with
        | nil => simp [relativeTo] at h
        | cons b q =>
          by_cases hab : a = b
          · subst hab
            simp only [relativeTo, if_true] at h
            simp [ih q h]
          · simp [relativeTo, hab] at h
    exact hq (hq2 ▸ habs r)

theorem delete_of_absent (dir : Path) (fs : FileSystem) (habs : Absent fs dir) :
    (DeleteDirectoryRecursively dir fs).2 = fs := by
  funext q
  cases hq : fs q with
  | none =>
    simp only [DeleteDirectoryRecursively]
    cases relativeTo dir q <;> simp [hq]
  | some e =>
    have hrel := relativeTo_none_of_absent_ne dir q fs habs (by simp [hq])
    rw [delete_outside dir fs q hrel, hq]

/-! ## The hooks on the recording platform file -/

theorem startup_recording {σ : Type} (pf : IPlatformFile σ) (host : FPaths) (s : σ)
    (log : List (Call × Bool)) :
    StartupModule (recording pf) host (s, log) =
      (StartupModule pf host s,
        log ++
          [(Call.CopyDirectoryTree (BackupDir host) (EngineShaderDir host) true,
              (pf.CopyDirectoryTree (BackupDir host) (EngineShaderDir host) true s).1),
           (Call.CopyDirectoryTree (EngineShaderDir host) (CustomShaderDir host) true,
              (pf.CopyDirectoryTree (EngineShaderDir host) (CustomShaderDir host) true
                (pf.CopyDirectoryTree (BackupDir host) (EngineShaderDir host) true s).2).1)]) := by
  simp [StartupModule, recording]

theorem shutdown_recording {σ : Type} (pf : IPlatformFile σ) (host : FPaths) (s : σ)
    (log : List (Call × Bool)) :
    ShutdownModule (recording pf) host (s, log) =
      (ShutdownModule pf host s,
        log ++
          [(Call.CopyDirectoryTree (EngineShaderDir host) (BackupDir host) true,
              (pf.CopyDirectoryTree (EngineShaderDir host) (BackupDir host) true s).1),
           (Call.DeleteDirectoryRecursively (BackupDir host),
              (pf.DeleteDirectoryRecursively (BackupDir host)
                (pf.CopyDirectoryTree (EngineShaderDir host) (BackupDir host) true s).2).1)]) := by
  simp [ShutdownModule, recording]

/-! ## The hooks on the reference platform file, path by path -/

theorem directoryExists_iff (fs : FileSystem) (dir : Path) :
    DirectoryExists fs dir = true ↔ fs (dir ++ []) = some Entry.directory := by
  simp [DirectoryExists]

theorem ofList_absent (entries : List (Path × Entry)) (dir : Path)
    (h : (entries.all fun kv => (relativeTo dir kv.1).isNone) = true) :
    Absent (FileSystem.ofList entries) dir := by
  intro r
  induction entries with
  | nil => rfl
  | cons kv rest ih =>
    simp only [List.all_cons, Bool.and_eq_true] at h
    obtain ⟨k, v⟩ := kv
    have hne : (dir ++ r == k) = false := by
      apply beq_false_of_ne
      intro heq
      have h1 := h.1
      rw [← heq, relativeTo_append] at h1
      simp at h1
    have ih2 := ih h.2
    simp only [FileSystem.ofList] at ih2 ⊢
    simp [List.lookup, hne, ih2]

theorem startup_custom (host : FPaths) (fs : FileSystem)
    (hEC : Unrelated (EngineShaderDir host) (CustomShaderDir host)) (r : Path) :
    StartupModule PlatformFile host fs (CustomShaderDir host ++ r) =
      fs (CustomShaderDir host ++ r) := by
  simp only [StartupModule, PlatformFile]
  rw [copy_outside _ _ _ _ _ (hEC.outside r),
    copy_outside _ _ _ _ _ ((backup_unrelated_custom host).outside r)]

theorem startup_engine_of_custom (host : FPaths) (fs : FileSystem) (r : Path) (e : Entry)
    (hC : DirectoryExists fs (CustomShaderDir host) = true)
    (he : fs (CustomShaderDir host ++ r) = some e) :
    StartupModule PlatformFile host fs (EngineShaderDir host ++ r) = some e := by
  simp only [StartupModule, PlatformFile]
  apply copy_at_some
  · rw [directoryExists_iff, copy_outside _ _ _ _ _ ((backup_unrelated_custom host).outside []),
      ← directoryExists_iff]
    exact hC
  · rw [copy_outside _ _ _ _ _ ((backup_unrelated_custom host).outside r)]
    exact he

theorem startup_engine_of_no_custom (host : FPaths) (fs : FileSystem) (r : Path)
    (hEB : Unrelated (EngineShaderDir host) (BackupDir host))
    (h : DirectoryExists fs (CustomShaderDir host) = false ∨
      fs (CustomShaderDir host ++ r) = none) :
    StartupModule PlatformFile host fs (EngineShaderDir host ++ r) =
      fs (EngineShaderDir host ++ r) := by
  simp only [StartupModule, PlatformFile]
  have hout := copy_outside (BackupDir host) (EngineShaderDir host) true fs _
    (hEB.symm.outside r)
  rcases h with h | h
  · have hC : DirectoryExists
        (CopyDirectoryTree (BackupDir host) (EngineShaderDir host) true fs).2
        (CustomShaderDir host) = false := by
      have h0 := copy_outside (BackupDir host) (EngineShaderDir host) true fs _
        ((backup_unrelated_custom host).outside [])
      simp only [List.append_nil] at h0
      simp only [DirectoryExists, h0]
      exact h
    rw [copy_of_missing _ _ _ _ hC]
    exact hout
  · rw [copy_at_none]
    · exact hout
    · rw [copy_outside _ _ _ _ _ ((backup_unrelated_custom host).outside r)]
      exact h

theorem startup_backup_of_engine (host : FPaths) (fs : FileSystem) (r : Path) (e : Entry)
    (hEB : Unrelated (EngineShaderDir host) (BackupDir host))
    (hE : DirectoryExists fs (EngineShaderDir host) = true)
    (he : fs (EngineShaderDir host ++ r) = some e) :
    StartupModule PlatformFile host fs (BackupDir host ++ r) = some e := by
  simp only [StartupModule, PlatformFile]
  rw [copy_outside _ _ _ _ _ (hEB.outside r)]
  exact copy_at_some _ _ _ _ _ hE he

theorem startup_backup_of_no_engine (host : FPaths) (fs : FileSystem) (r : Path)
    (hEB : Unrelated (EngineShaderDir host) (BackupDir host))
    (h : DirectoryExists fs (EngineShaderDir host) = false ∨
      fs (EngineShaderDir host ++ r) = none) :
    StartupModule PlatformFile host fs (BackupDir host ++ r) = fs (BackupDir host ++ r) := by
  simp only [StartupModule, PlatformFile]
  rw [copy_outside _ _ _ _ _ (hEB.outside r)]
  rcases h with h | h
  · rw [copy_of_missing _ _ _ _ h]
  · exact copy_at_none _ _ _ _ _ h

theorem shutdown_engine_of_backup (host : FPaths) (fs : FileSystem) (r : Path) (e : Entry)
    (hEB : Unrelated (EngineShaderDir host) (BackupDir host))
    (hB : DirectoryExists fs (BackupDir host) = true)
    (he : fs (BackupDir host ++ r) = some e) :
    ShutdownModule PlatformFile host fs (EngineShaderDir host ++ r) = some e := by
  simp only [ShutdownModule, PlatformFile]
  rw [delete_outside _ _ _ (hEB.symm.outside r)]
  exact copy_at_some _ _ _ _ _ hB he

theorem shutdown_engine_of_no_backup (host : FPaths) (fs : FileSystem) (r : Path)
    (hEB : Unrelated (EngineShaderDir host) (BackupDir host))
    (h : DirectoryExists fs (BackupDir host) = false ∨ fs (BackupDir host ++ r) = none) :
    ShutdownModule PlatformFile host fs (EngineShaderDir host ++ r) =
      fs (EngineShaderDir host ++ r) := by
  simp only [ShutdownModule, PlatformFile]
  rw [delete_outside _ _ _ (hEB.symm.outside r)]
  rcases h with h | h
  · rw [copy_of_missing _ _ _ _ h]
  · exact copy_at_none _ _ _ _ _ h

theorem shutdown_backup (host : FPaths) (fs : FileSystem) (r : Path) :
    ShutdownModule PlatformFile host fs (BackupDir host ++ r) = none := by
  simp only [ShutdownModule, PlatformFile]
  exact delete_at _ _ _

theorem startup_log_succeed (host : FPaths) (fs : FileSystem) (log : List (Call × Bool))
    (h : allCopiesSucceed (StartupModule (recording PlatformFile) host (fs, log)).2 = true) :
    DirectoryExists fs (EngineShaderDir host) = true ∧
      DirectoryExists fs (CustomShaderDir host) = true := by
  rw [startup_recording] at h
  simp only [allCopiesSucceed, List.all_append, List.all_cons, List.all_nil, Call.isCopy,
    Bool.not_true, Bool.false_or, Bool.and_true, Bool.and_eq_true, PlatformFile,
    copy_status] at h
  refine ⟨h.2.1, ?_⟩
  have h2 := h.2.2
  have h0 := copy_outside (BackupDir host) (EngineShaderDir host) true fs _
    ((backup_unrelated_custom host).outside [])
  simp only [List.append_nil] at h0
  simp only [DirectoryExists, h0] at h2
  exact h2

theorem allCopiesSucceed_left (a b : List (Call × Bool))
    (h : allCopiesSucceed (a ++ b) = true) : allCopiesSucceed a = true := by
  simp only [allCopiesSucceed, List.all_append, Bool.and_eq_true] at h
  exact h.1

theorem refusing_startup_denied_backup (denied : Path → Bool) (host : FPaths)
    (fs : FileSystem) (hB : denied (BackupDir host) = true)
    (hE : denied (EngineShaderDir host) = false) :
    StartupModule (refusing denied) host fs =
      (CopyDirectoryTree (EngineShaderDir host) (CustomShaderDir host) true fs).2 := by
  simp [StartupModule, refusing, hB, hE]

/-! ## Properties of the hooks -/

/-- C1: when `CustomShaderDir` exists, after `StartupModule` every file at a
relative path of `CustomShaderDir` has a file with identical contents at the
same relative path under `EngineShaderDir`.  This holds for the files
`CustomShaderDir` held before the call and, when the engine shader directory
shares no path with the plugin's directories, equally for the files it holds
after the call. -/
theorem startup_installs_custom_files (host : FPaths) (fs : FileSystem)
    (hC : DirectoryExists fs (CustomShaderDir host) = true) :
    (∀ (r : Path) (data : String),
      fs (CustomShaderDir host ++ r) = some (Entry.file data) →
      StartupModule PlatformFile host fs (EngineShaderDir host ++ r) =
        some (Entry.file data)) ∧
    (Separated host → ∀ (r : Path) (data : String),
      StartupModule PlatformFile host fs (CustomShaderDir host ++ r) =
        some (Entry.file data) →
      StartupModule PlatformFile host fs (EngineShaderDir host ++ r) =
        some (Entry.file data)) := by
  refine ⟨fun r data h => startup_engine_of_custom host fs r _ hC h, ?_⟩
  intro hsep r data h
  rw [startup_custom host fs hsep.2 r] at h
  exact startup_engine_of_custom host fs r _ hC h

theorem startup_installs_custom_files_witness :
    DirectoryExists freshInstall (CustomShaderDir sampleHost) = true ∧
    Separated sampleHost ∧
    StartupModule PlatformFile sampleHost freshInstall
        (EngineShaderDir sampleHost ++ ["CelLit.usf"]) = some (Entry.file "custom cel") ∧
    StartupModule PlatformFile sampleHost freshInstall
        (EngineShaderDir sampleHost ++ ["Toon.usf"]) = some (Entry.file "custom toon") :=
  ⟨by decide, by decide,
    (startup_installs_custom_files sampleHost freshInstall (by decide)).1
      ["CelLit.usf"] "custom cel" (by decide),
    (startup_installs_custom_files sampleHost freshInstall (by decide)).2 (by decide)
      ["Toon.usf"] "custom toon" (by decide)⟩

/-- C2: when `EngineShaderDir` exists (and shares no path with the plugin's
directories), after `StartupModule` every file that was in `EngineShaderDir`
before the call has a copy with identical contents at the same relative path
under `BackupDir`: the backup holds the engine's files as they were before the
custom shaders were installed over them. -/
theorem startup_backs_up_engine_files (host : FPaths) (hsep : Separated host)
    (fs : FileSystem) (hE : DirectoryExists fs (EngineShaderDir host) = true)
    (r : Path) (data : String)
    (hfile : fs (EngineShaderDir host ++ r) = some (Entry.file data)) :
    StartupModule PlatformFile host fs (BackupDir host ++ r) = some (Entry.file data) :=
  startup_backup_of_engine host fs r _ hsep.1 hE hfile

theorem startup_backs_up_engine_files_witness :
    Separated sampleHost ∧
    DirectoryExists freshInstall (EngineShaderDir sampleHost) = true ∧
    freshInstall (EngineShaderDir sampleHost ++ ["Toon.usf"]) =
      some (Entry.file "engine toon") ∧
    StartupModule PlatformFile sampleHost freshInstall
        (BackupDir sampleHost ++ ["Toon.usf"]) = some (Entry.file "engine toon") :=
  ⟨by decide, by decide, by decide,
    startup_backs_up_engine_files sampleHost (by decide) freshInstall (by decide)
      ["Toon.usf"] "engine toon" (by decide)⟩

/-- C3 fails as stated: on a fresh install, after `StartupModule` then
`ShutdownModule` the engine shader directory is not its snapshot from before
the load, since the file `CelLit.usf` the plugin added is still there. -/
theorem load_unload_engine_differs_from_snapshot :
    ¬ ∀ r : Path,
      ShutdownModule PlatformFile sampleHost (StartupModule PlatformFile sampleHost freshInstall)
          (EngineShaderDir sampleHost ++ r) =
        freshInstall (EngineShaderDir sampleHost ++ r) := by
  intro h
  exact absurd (h ["CelLit.usf"]) (by decide)

/-- C3, amended: when `EngineShaderDir` exists (and shares no path with the
plugin's directories), after `StartupModule` then `ShutdownModule` every
relative path that existed in `EngineShaderDir` before the load holds its
original contents again.  Paths that were not in the snapshot may remain. -/
theorem load_unload_restores_snapshot_paths (host : FPaths) (hsep : Separated host)
    (fs : FileSystem) (hE : DirectoryExists fs (EngineShaderDir host) = true)
    (r : Path) (e : Entry) (he : fs (EngineShaderDir host ++ r) = some e) :
    ShutdownModule PlatformFile host (StartupModule PlatformFile host fs)
        (EngineShaderDir host ++ r) = some e := by
  apply shutdown_engine_of_backup host _ r e hsep.1
  · rw [directoryExists_iff]
    exact startup_backup_of_engine host fs [] _ hsep.1 hE ((directoryExists_iff _ _).1 hE)
  · exact startup_backup_of_engine host fs r e hsep.1 hE he

theorem load_unload_restores_snapshot_paths_witness :
    Separated sampleHost ∧
    DirectoryExists freshInstall (EngineShaderDir sampleHost) = true ∧
    freshInstall (EngineShaderDir sampleHost ++ ["Toon.usf"]) =
      some (Entry.file "engine toon") ∧
    ShutdownModule PlatformFile sampleHost (StartupModule PlatformFile sampleHost freshInstall)
        (EngineShaderDir sampleHost ++ ["Toon.usf"]) = some (Entry.file "engine toon") :=
  ⟨by decide, by decide, by decide,
    load_unload_restores_snapshot_paths sampleHost (by decide) freshInstall (by decide)
      ["Toon.usf"] (Entry.file "engine toon") (by decide)⟩

/-- C4 fails as stated: the first call `ShutdownModule` issues is not a copy
with `BackupDir` as destination and `EngineShaderDir` as source, and on the
state of a loaded plugin `ShutdownModule` does change `EngineShaderDir`
(`Toon.usf` goes from the custom contents back to the engine's). -/
theorem shutdown_changes_engine_dir :
    ((ShutdownModule (recording PlatformFile) sampleHost (loadedState, [])).2.map Prod.fst).head? ≠
        some (Call.CopyDirectoryTree (BackupDir sampleHost) (EngineShaderDir sampleHost) true) ∧
    ¬ ∀ r : Path,
      ShutdownModule PlatformFile sampleHost loadedState (EngineShaderDir sampleHost ++ r) =
        loadedState (EngineShaderDir sampleHost ++ r) := by
  refine ⟨by decide, ?_⟩
  intro h
  exact absurd (h ["Toon.usf"]) (by decide)

/-- C4, amended: the first call of `ShutdownModule` is
`CopyDirectoryTree(EngineShaderDir, BackupDir, true)`, that is destination
`EngineShaderDir` and source `BackupDir`, on every platform file.  Consequently,
when `BackupDir` exists (and the engine shader directory shares no path with
the plugin's directories), after `ShutdownModule` every entry that was under
`BackupDir` is at the same relative path under `EngineShaderDir`, and the
relative paths with nothing under `BackupDir` are in `EngineShaderDir` as they
were. -/
theorem shutdown_copies_backup_into_engine (host : FPaths) (hsep : Separated host)
    (fs : FileSystem) (hB : DirectoryExists fs (BackupDir host) = true) :
    (∀ (σ : Type) (pf : IPlatformFile σ) (s : σ),
      ((ShutdownModule (recording pf) host (s, [])).2.map Prod.fst).head? =
        some (Call.CopyDirectoryTree (EngineShaderDir host) (BackupDir host) true)) ∧
    (∀ (r : Path) (e : Entry), fs (BackupDir host ++ r) = some e →
      ShutdownModule PlatformFile host fs (EngineShaderDir host ++ r) = some e) ∧
    (∀ r : Path, fs (BackupDir host ++ r) = none →
      ShutdownModule PlatformFile host fs (EngineShaderDir host ++ r) =
        fs (EngineShaderDir host ++ r)) := by
  refine ⟨?_, ?_, ?_⟩
  · intro σ pf s
    rw [shutdown_recording]
    rfl
  · intro r e he
    exact shutdown_engine_of_backup host fs r e hsep.1 hB he
  · intro r he
    exact shutdown_engine_of_no_backup host fs r hsep.1 (Or.inr he)

theorem shutdown_copies_backup_into_engine_witness :
    Separated sampleHost ∧
    DirectoryExists loadedState (BackupDir sampleHost) = true ∧
    loadedState (BackupDir sampleHost ++ ["Toon.usf"]) = some (Entry.file "engine toon") ∧
    ShutdownModule PlatformFile sampleHost loadedState
        (EngineShaderDir sampleHost ++ ["Toon.usf"]) = some (Entry.file "engine toon") :=
  ⟨by decide, by decide, by decide,
    (shutdown_copies_backup_into_engine sampleHost (by decide) loadedState (by decide)).2.1
      ["Toon.usf"] (Entry.file "engine toon") (by decide)⟩

/-- C5: for every initial state, after `StartupModule` then `ShutdownModule`
nothing, file or directory, is at or under `BackupDir`. -/
theorem load_unload_backup_absent (host : FPaths) (fs : FileSystem) :
    Absent (ShutdownModule PlatformFile host (StartupModule PlatformFile host fs))
      (BackupDir host) :=
  fun r => shutdown_backup host _ r

/-- C6: `StartupModule` is idempotent on `EngineShaderDir`: for every initial
state (the engine shader directory sharing no path with the plugin's
directories), every relative path of `EngineShaderDir` holds the same after two
calls in a row as after one. -/
theorem startup_idempotent_on_engine (host : FPaths) (hsep : Separated host)
    (fs : FileSystem) (r : Path) :
    StartupModule PlatformFile host (StartupModule PlatformFile host fs)
        (EngineShaderDir host ++ r) =
      StartupModule PlatformFile host fs (EngineShaderDir host ++ r) := by
  have hC0 := startup_custom host fs hsep.2 []
  have hCr := startup_custom host fs hsep.2 r
  cases hC : DirectoryExists fs (CustomShaderDir host) with
  | false =>
    apply startup_engine_of_no_custom host _ r hsep.1
    left
    simp only [List.append_nil] at hC0
    simp only [DirectoryExists, hC0]
    exact hC
  | true =>
    cases he : fs (CustomShaderDir host ++ r) with
    | none =>
      apply startup_engine_of_no_custom host _ r hsep.1
      right
      rw [hCr]
      exact he
    | some e =>
      rw [startup_engine_of_custom host fs r e hC he]
      apply startup_engine_of_custom host _ r e
      · rw [directoryExists_iff, hC0, ← directoryExists_iff]
        exact hC
      · rw [hCr]
        exact he

theorem startup_idempotent_on_engine_witness :
    Separated sampleHost ∧
    StartupModule PlatformFile sampleHost (StartupModule PlatformFile sampleHost freshInstall)
        (EngineShaderDir sampleHost ++ ["Toon.usf"]) =
      StartupModule PlatformFile sampleHost freshInstall
        (EngineShaderDir sampleHost ++ ["Toon.usf"]) :=
  ⟨by decide, startup_idempotent_on_engine sampleHost (by decide) freshInstall ["Toon.usf"]⟩

/-- C7: when `BackupDir` does not exist, `ShutdownModule` completes normally.
It issues both of its calls; the copy from the missing directory fails and
changes nothing, its status and the status of the delete are dropped, and the
resulting state agrees with the initial one on every path outside `BackupDir`;
when nothing at all lies under `BackupDir`, the resulting state is the initial
one. -/
theorem shutdown_without_backup (host : FPaths) (fs : FileSystem)
    (hB : DirectoryExists fs (BackupDir host) = false) :
    (ShutdownModule (recording PlatformFile) host (fs, [])).2.map Prod.fst =
        [Call.CopyDirectoryTree (EngineShaderDir host) (BackupDir host) true,
         Call.DeleteDirectoryRecursively (BackupDir host)] ∧
    PlatformFile.CopyDirectoryTree (EngineShaderDir host) (BackupDir host) true fs =
        (false, fs) ∧
    (∀ q : Path, relativeTo (BackupDir host) q = none →
      ShutdownModule PlatformFile host fs q = fs q) ∧
    (Absent fs (BackupDir host) → ShutdownModule PlatformFile host fs = fs) := by
  have hcopy : CopyDirectoryTree (EngineShaderDir host) (BackupDir host) true fs = (false, fs) :=
    copy_of_missing _ _ _ _ hB
  refine ⟨?_, hcopy, ?_, ?_⟩
  · rw [shutdown_recording]
    rfl
  · intro q hq
    simp only [ShutdownModule, PlatformFile, hcopy]
    exact delete_outside _ _ _ hq
  · intro habs
    simp only [ShutdownModule, PlatformFile, hcopy]
    exact delete_of_absent _ _ habs

theorem shutdown_without_backup_witness :
    DirectoryExists freshInstall (BackupDir sampleHost) = false ∧
    Absent freshInstall (BackupDir sampleHost) ∧
    ShutdownModule PlatformFile sampleHost freshInstall = freshInstall :=
  ⟨by decide, ofList_absent _ _ (by decide),
    (shutdown_without_backup sampleHost freshInstall (by decide)).2.2.2
      (ofList_absent _ _ (by decide))⟩

/-- C8: both hooks drop the status of every primitive and issue the next step
unconditionally.  On every platform file, whatever its primitives return,
`StartupModule` issues the backup copy and then the custom-shader copy, and
`ShutdownModule` issues its copy and then the delete of `BackupDir`.  So on a
platform file that refuses `BackupDir` but not `EngineShaderDir`, with
`CustomShaderDir` present (and the engine shader directory sharing no path with
the plugin's directories), the backup copy fails, the custom copy succeeds,
`EngineShaderDir` holds every entry of `CustomShaderDir`, and everything under
`BackupDir` is as before: no copy of the originals was made. -/
theorem hooks_drop_statuses (host : FPaths) (hsep : Separated host) (fs : FileSystem)
    (denied : Path → Bool) (hdB : denied (BackupDir host) = true)
    (hdE : denied (EngineShaderDir host) = false)
    (hC : DirectoryExists fs (CustomShaderDir host) = true) :
    (∀ (σ : Type) (pf : IPlatformFile σ) (s : σ),
      (StartupModule (recording pf) host (s, [])).2.map Prod.fst =
        [Call.CopyDirectoryTree (BackupDir host) (EngineShaderDir host) true,
         Call.CopyDirectoryTree (EngineShaderDir host) (CustomShaderDir host) true]) ∧
    (∀ (σ : Type) (pf : IPlatformFile σ) (s : σ),
      (ShutdownModule (recording pf) host (s, [])).2.map Prod.fst =
        [Call.CopyDirectoryTree (EngineShaderDir host) (BackupDir host) true,
         Call.DeleteDirectoryRecursively (BackupDir host)]) ∧
    (StartupModule (recording (refusing denied)) host (fs, [])).2.map Prod.snd =
        [false, true] ∧
    (∀ (r : Path) (e : Entry), fs (CustomShaderDir host ++ r) = some e →
      StartupModule (refusing denied) host fs (EngineShaderDir host ++ r) = some e) ∧
    (∀ r : Path,
      StartupModule (refusing denied) host fs (BackupDir host ++ r) =
        fs (BackupDir host ++ r)) := by
  refine ⟨?_, ?_, ?_, ?_, ?_⟩
  · intro σ pf s
    rw [startup_recording]
    rfl
  · intro σ pf s
    rw [shutdown_recording]
    rfl
  · rw [startup_recording]
    simp [refusing, hdB, hdE, copy_status, hC]
  · intro r e he
    rw [refusing_startup_denied_backup denied host fs hdB hdE]
    exact copy_at_some _ _ _ _ _ hC he
  · intro r
    rw [refusing_startup_denied_backup denied host fs hdB hdE]
    exact copy_outside _ _ _ _ _ (hsep.1.outside r)

theorem hooks_drop_statuses_witness :
    Separated sampleHost ∧
    DirectoryExists freshInstall (CustomShaderDir sampleHost) = true ∧
    StartupModule (refusing fun p => p == BackupDir sampleHost) sampleHost freshInstall
        (EngineShaderDir sampleHost ++ ["Toon.usf"]) = some (Entry.file "custom toon") ∧
    StartupModule (refusing fun p => p == BackupDir sampleHost) sampleHost freshInstall
        (BackupDir sampleHost ++ ["Toon.usf"]) = none :=
  ⟨by decide, by decide,
    (hooks_drop_statuses sampleHost (by decide) freshInstall
      (fun p => p == BackupDir sampleHost) (by decide) (by decide) (by decide)).2.2.2.1
      ["Toon.usf"] (Entry.file "custom toon") (by decide),
    (hooks_drop_statuses sampleHost (by decide) freshInstall
      (fun p => p == BackupDir sampleHost) (by decide) (by decide) (by decide)).2.2.2.2
      ["Toon.usf"]⟩

/-- C9: `StartupModule` followed by `ShutdownModule` does not remove what the
plugin added.  For every initial state in which nothing lies under `BackupDir`
and all copies of the two hooks succeed (the engine shader directory sharing no
path with the plugin's directories), after the pair every relative path that
existed in the original `EngineShaderDir` holds its original contents again, and
every relative path that exists in `CustomShaderDir` but did not exist in the
original `EngineShaderDir` is in `EngineShaderDir` with the custom contents. -/
theorem load_unload_keeps_added_files (host : FPaths) (hsep : Separated host)
    (fs : FileSystem) (hB : Absent fs (BackupDir host))
    (hok : allCopiesSucceed
      (ShutdownModule (recording PlatformFile) host
        (StartupModule (recording PlatformFile) host (fs, []))).2 = true) :
    (∀ (r : Path) (e : Entry), fs (EngineShaderDir host ++ r) = some e →
      ShutdownModule PlatformFile host (StartupModule PlatformFile host fs)
        (EngineShaderDir host ++ r) = some e) ∧
    (∀ (r : Path) (e : Entry), fs (CustomShaderDir host ++ r) = some e →
      fs (EngineShaderDir host ++ r) = none →
      ShutdownModule PlatformFile host (StartupModule PlatformFile host fs)
        (EngineShaderDir host ++ r) = some e) := by
  rw [startup_recording, shutdown_recording] at hok
  have hEC := startup_log_succeed host fs []
    (by rw [startup_recording]; exact allCopiesSucceed_left _ _ hok)
  obtain ⟨hE, hC⟩ := hEC
  have hBdir : DirectoryExists (StartupModule PlatformFile host fs) (BackupDir host) = true := by
    rw [directoryExists_iff]
    exact startup_backup_of_engine host fs [] _ hsep.1 hE ((directoryExists_iff _ _).1 hE)
  refine ⟨?_, ?_⟩
  · intro r e he
    exact shutdown_engine_of_backup host _ r e hsep.1 hBdir
      (startup_backup_of_engine host fs r e hsep.1 hE he)
  · intro r e hc hnone
    rw [shutdown_engine_of_no_backup host _ r hsep.1]
    · exact startup_engine_of_custom host fs r e hC hc
    · right
      rw [startup_backup_of_no_engine host fs r hsep.1 (Or.inr hnone)]
      exact hB r

theorem load_unload_keeps_added_files_witness :
    Separated sampleHost ∧
    Absent freshInstall (BackupDir sampleHost) ∧
    allCopiesSucceed
      (ShutdownModule (recording PlatformFile) sampleHost
        (StartupModule (recording PlatformFile) sampleHost (freshInstall, []))).2 = true ∧
    ShutdownModule PlatformFile sampleHost (StartupModule PlatformFile sampleHost freshInstall)
        (EngineShaderDir sampleHost ++ ["Toon.usf"]) = some (Entry.file "engine toon") ∧
    ShutdownModule PlatformFile sampleHost (StartupModule PlatformFile sampleHost freshInstall)
        (EngineShaderDir sampleHost ++ ["CelLit.usf"]) = some (Entry.file "custom cel") :=
  ⟨by decide, ofList_absent _ _ (by decide), by decide,
    (load_unload_keeps_added_files sampleHost (by decide) freshInstall
      (ofList_absent _ _ (by decide)) (by decide)).1
      ["Toon.usf"] (Entry.file "engine toon") (by decide),
    (load_unload_keeps_added_files sampleHost (by decide) freshInstall
      (ofList_absent _ _ (by decide)) (by decide)).2
      ["CelLit.usf"] (Entry.file "custom cel") (by decide) (by decide)⟩

/-- C10: a second `StartupModule` with no `ShutdownModule` in between replaces
the backup of the originals.  For every initial state in which all copies of the
two calls succeed (the engine shader directory sharing no path with the
plugin's directories), every relative path present in both `CustomShaderDir`
and the original `EngineShaderDir` holds the original contents under
`BackupDir` after the first call and the custom contents after the second, and
a following `ShutdownModule` leaves the custom contents at that path in
`EngineShaderDir`. -/
theorem double_startup_replaces_backup (host : FPaths) (hsep : Separated host)
    (fs : FileSystem)
    (hok : allCopiesSucceed
      (StartupModule (recording PlatformFile) host
        (StartupModule (recording PlatformFile) host (fs, []))).2 = true)
    (r : Path) (c e : Entry)
    (hc : fs (CustomShaderDir host ++ r) = some c)
    (he : fs (EngineShaderDir host ++ r) = some e) :
    StartupModule PlatformFile host fs (BackupDir host ++ r) = some e ∧
    StartupModule PlatformFile host (StartupModule PlatformFile host fs)
        (BackupDir host ++ r) = some c ∧
    ShutdownModule PlatformFile host
        (StartupModule PlatformFile host (StartupModule PlatformFile host fs))
        (EngineShaderDir host ++ r) = some c := by
  rw [startup_recording, startup_recording] at hok
  have hEC := startup_log_succeed host fs []
    (by rw [startup_recording]; exact allCopiesSucceed_left _ _ hok)
  obtain ⟨hE, hC⟩ := hEC
  have hE1 : DirectoryExists (StartupModule PlatformFile host fs) (EngineShaderDir host) = true := by
    rw [directoryExists_iff]
    exact startup_engine_of_custom host fs [] _ hC ((directoryExists_iff _ _).1 hC)
  have hc1 : StartupModule PlatformFile host fs (EngineShaderDir host ++ r) = some c :=
    startup_engine_of_custom host fs r c hC hc
  have hb2 := startup_backup_of_engine host _ r c hsep.1 hE1 hc1
  have hB2 : DirectoryExists
      (StartupModule PlatformFile host (StartupModule PlatformFile host fs))
      (BackupDir host) = true := by
    rw [directoryExists_iff]
    exact startup_backup_of_engine host _ [] _ hsep.1 hE1 ((directoryExists_iff _ _).1 hE1)
  exact ⟨startup_backup_of_engine host fs r e hsep.1 hE he, hb2,
    shutdown_engine_of_backup host _ r c hsep.1 hB2 hb2⟩

theorem double_startup_replaces_backup_witness :
    Separated sampleHost ∧
    allCopiesSucceed
      (StartupModule (recording PlatformFile) sampleHost
        (StartupModule (recording PlatformFile) sampleHost (freshInstall, []))).2 = true ∧
    freshInstall (CustomShaderDir sampleHost ++ ["Toon.usf"]) =
      some (Entry.file "custom toon") ∧
    freshInstall (EngineShaderDir sampleHost ++ ["Toon.usf"]) =
      some (Entry.file "engine toon") ∧
    StartupModule PlatformFile sampleHost freshInstall
        (BackupDir sampleHost ++ ["Toon.usf"]) = some (Entry.file "engine toon") ∧
    StartupModule PlatformFile sampleHost (StartupModule PlatformFile sampleHost freshInstall)
        (BackupDir sampleHost ++ ["Toon.usf"]) = some (Entry.file "custom toon") ∧
    ShutdownModule PlatformFile sampleHost
        (StartupModule PlatformFile sampleHost (StartupModule PlatformFile sampleHost freshInstall))
        (EngineShaderDir sampleHost ++ ["Toon.usf"]) = some (Entry.file "custom toon") :=
  ⟨by decide, by decide, by decide, by decide,
    double_startup_replaces_backup sampleHost (by decide) freshInstall (by decide)
      ["Toon.usf"] (Entry.file "custom toon") (Entry.file "engine toon")
      (by decide) (by decide)⟩

end CelLit
